import Mathlib

/-!
Shallow embedding of `scripts/cooccur_phylo_hgt/prep_combined_tables_ranger.py`.

The script joins four in-memory tables (co-occurrence measures, tip distances,
taxonomic rank breakdown, pairwise HGT tallies) keyed by taxon-pair strings and
prints one tab-delimited output row per HGT-table entry, validating consistency
along the way.  Every definition below is translated directly from the Python
source; table cell values are modelled as strings because the script never
computes with them, it only copies them into the output.
-/

namespace PrepTables

/-- Python string comparison (`sorted`, `<`) on the underlying character
lists: lexicographic by Unicode code point. -/
def lexLe : List Char → List Char → Bool
  | [], _ => true
  | _ :: _, [] => false
  | x :: xs, y :: ys =>
    if x.toNat < y.toNat then true
    else if y.toNat < x.toNat then false
    else lexLe xs ys

/-- Python `a <= b` on strings. -/
def strLe (a b : String) : Bool := lexLe a.data b.data

/-- Python `sorted([a, b])` (stable two-element sort). -/
def sortedPair (a b : String) : List String :=
  if strLe a b then [a, b] else [b, a]

/-- Python `",".join(parts)`. -/
def joinCommaStr : List String → String
  | [] => ""
  | [v] => v
  | v :: vs => v ++ "," ++ joinCommaStr vs

/-- Python `"\t".join(parts)`. -/
def joinTab : List String → String
  | [] => ""
  | [v] => v
  | v :: vs => v ++ "\t" ++ joinTab vs

/-- Line 55 of the source: the canonical unordered pair key
`",".join(sorted([row["taxon_i"], row["taxon_j"]]))`. -/
def canonKey (a b : String) : String := joinCommaStr (sortedPair a b)

/-- Worker for `splitComma`: accumulates the current (reversed) field. -/
def splitCommaAux : List Char → List Char → List (List Char)
  | [], acc => [acc.reverse]
  | c :: rest, acc =>
    if c = ',' then acc.reverse :: splitCommaAux rest []
    else splitCommaAux rest (c :: acc)

/-- Python `s.split(',')` (line 62 of the source): splits at every comma and
keeps empty fields, e.g. `"X,"` splits into `["X", ""]`. -/
def splitComma (s : String) : List String :=
  (splitCommaAux s.data []).map String.mk

/-- Tail part of `joinCommaList`: each remaining field is preceded by a comma. -/
def joinCommaTail : List (List Char) → List Char
  | [] => []
  | q :: qs => ',' :: (q ++ joinCommaTail qs)

/-- Comma-join on character lists, used to state that `splitComma` loses no
information. -/
def joinCommaList : List (List Char) → List Char
  | [] => []
  | p :: ps => p ++ joinCommaTail ps

/-- One row of the co-occurrence table: the two taxon columns plus the
remaining (measure) columns as name/value cells. -/
structure CooccurRow where
  taxon_i : String
  taxon_j : String
  cells : List (String × String)
deriving DecidableEq

/-- Index key of a co-occurrence row (line 55 of the source). -/
def cooccurKey (r : CooccurRow) : String := canonKey r.taxon_i r.taxon_j

/-- The loaded co-occurrence table. -/
structure CooccurTab where
  rows : List CooccurRow
deriving DecidableEq

/-- `cooccur_tab.loc[k]`: first row whose canonical index key equals `k`. -/
def cooccurLoc (t : CooccurTab) (k : String) : Option CooccurRow :=
  t.rows.find? (fun r => cooccurKey r == k)

/-- `k in cooccur_tab.index`. -/
def cooccurMem (t : CooccurTab) (k : String) : Bool :=
  t.rows.any (fun r => cooccurKey r == k)

/-- The tip-distance matrix: row index plus the square-matrix cell values
(the spec fixes square-matrix semantics, `value at [i,j]`). -/
structure TipDist where
  idx : List String
  val : String → String → String

/-- The 8 fixed rank columns of one taxonomic-table row. -/
structure RankVec where
  domain : String
  phylum : String
  classLevel : String
  orderLevel : String
  family : String
  genus : String
  species : String
  strain : String
deriving DecidableEq

/-- The loaded taxonomic table, indexed by taxon identifier. -/
structure TaxaTab where
  rows : List (String × RankVec)
deriving DecidableEq

/-- `taxa_tab.loc[k, tax_levels]`; `none` models the pandas `KeyError` on a
missing row label. -/
def taxaLoc (t : TaxaTab) (k : String) : Option RankVec :=
  (t.rows.find? (fun r => r.1 == k)).map (fun r => r.2)

/-- One row of the HGT tally table (the `species` and `hgt_count` columns). -/
structure HgtRow where
  species : String
  hgt_count : String
deriving DecidableEq

/-- The loaded HGT table, indexed by the literal ordered pair key. -/
structure HgtTab where
  rows : List (String × HgtRow)
deriving DecidableEq

/-- `hgt_tab.loc[k]`. -/
def hgtLoc (t : HgtTab) (k : String) : Option HgtRow :=
  (t.rows.find? (fun r => r.1 == k)).map (fun r => r.2)

/-- `k in hgt_tab.index`. -/
def hgtMem (t : HgtTab) (k : String) : Bool :=
  t.rows.any (fun r => r.1 == k)

/-- The fatal outcomes of the script.  `formatError`, `strainError`,
`reverseHgt`, `reverseCooccur` and `hgtNotFound` are the five `sys.exit`
messages; `keyError` models an uncaught pandas lookup exception. -/
inductive Fatal where
  | formatError (key : String)
  | strainError (combo : String)
  | hgtNotFound (combo : String)
  | reverseHgt (combo : String)
  | reverseCooccur (combo : String)
  | keyError (label : String)
deriving DecidableEq

/-- The spec's ConsistencyError taxonomy (section 7): strain-level mismatch,
reverse key in the HGT table, reverse key in the co-occurrence table. -/
def isConsistencyError : Fatal → Prop
  | .strainError _ => True
  | .reverseHgt _ => True
  | .reverseCooccur _ => True
  | _ => False

/-- The ordered rank names scanned by the loop at lines 88-94. -/
def tax_levels : List String :=
  ["Domain", "Phylum", "Class", "Order", "Family", "Genus", "Species", "Strain"]

/-- The 8 rank cells of a row, in the order of `tax_levels`. -/
def rankValues (v : RankVec) : List String :=
  [v.domain, v.phylum, v.classLevel, v.orderLevel, v.family, v.genus, v.species, v.strain]

/-- The scan of lines 91-94: first rank name at which the two vectors differ,
`"NO_DIFF_FOUND"` when none does. -/
def firstDiffAux : List String → List String → List String → String
  | name :: names, x :: xs, y :: ys =>
    if x ≠ y then name else firstDiffAux names xs ys
  | _, _, _ => "NO_DIFF_FOUND"

/-- `diff_level` as computed at lines 87-94 for a pair of taxa. -/
def diffLevel (vi vj : RankVec) : String :=
  firstDiffAux tax_levels (rankValues vi) (rankValues vj)

/-- Lines 82-85: `"NA"` when either taxon is missing from the tip-distance
index, otherwise the matrix cell `tip_dist.loc[taxon_i, taxon_j]`. -/
def tipDistVal (t : TipDist) (taxon_i taxon_j : String) : String :=
  if taxon_i ∉ t.idx ∨ taxon_j ∉ t.idx then "NA" else t.val taxon_i taxon_j

/-- `cooccur_row[measure]` for one row. -/
def cellLookup (r : CooccurRow) (measure : String) : Option String :=
  (r.cells.find? (fun c => c.1 == measure)).map (fun c => c.2)

/-- Lines 110-111: collect `str(cooccur_row[measure])` for every requested
measure; a missing measure column is the uncaught pandas `KeyError`. -/
def getMeasures (r : CooccurRow) : List String → Except Fatal (List String)
  | [] => .ok []
  | m :: ms =>
    match cellLookup r m with
    | none => .error (.keyError m)
    | some v =>
      match getMeasures r ms with
      | .error e => .error e
      | .ok vs => .ok (v :: vs)

/-- Lines 107-115: the co-occurrence values for one pair.  The ordered key is
tried first; if absent and the reverse ordered key is present the run fails;
if neither is present every measure gets `"NA"`. -/
def cooccurValues (t : CooccurTab) (ms : List String)
    (taxa_combo reverse_taxa_combo : String) : Except Fatal (List String) :=
  match cooccurLoc t taxa_combo with
  | some row => getMeasures row ms
  | none =>
    if cooccurMem t reverse_taxa_combo then .error (.reverseCooccur reverse_taxa_combo)
    else .ok (ms.map (fun _ => "NA"))

/-- The loaded program state: the four tables and the requested measures. -/
structure State where
  cooccur_tab : CooccurTab
  tip_dist : TipDist
  taxa_tab : TaxaTab
  hgt_tab : HgtTab
  measures : List String

/-- Lines 75-119: processing of one parsed taxa pair.  Returns the printed
output line or the fatal outcome that terminates the run. -/
def processPair (st : State) (taxon_i taxon_j : String) : Except Fatal String :=
  let taxa_combo := taxon_i ++ "," ++ taxon_j
  let reverse_taxa_combo := taxon_j ++ "," ++ taxon_i
  let tip_dist_val := tipDistVal st.tip_dist taxon_i taxon_j
  match taxaLoc st.taxa_tab taxon_i, taxaLoc st.taxa_tab taxon_j with
  | none, _ => .error (.keyError taxon_i)
  | some _, none => .error (.keyError taxon_j)
  | some taxon_i_levels, some taxon_j_levels =>
    if diffLevel taxon_i_levels taxon_j_levels ≠ "Strain" then
      .error (.strainError taxa_combo)
    else
      match hgtLoc st.hgt_tab taxa_combo with
      | none => .error (.hgtNotFound taxa_combo)
      | some hgt_row =>
        if hgtMem st.hgt_tab reverse_taxa_combo then
          .error (.reverseHgt reverse_taxa_combo)
        else
          match cooccurValues st.cooccur_tab st.measures taxa_combo reverse_taxa_combo with
          | .error e => .error e
          | .ok cooccur_values =>
            .ok (taxa_combo ++ "\t" ++ taxon_i ++ "\t" ++ taxon_j ++ "\t" ++
                 tip_dist_val ++ "\t" ++ hgt_row.species ++ "\t" ++ hgt_row.hgt_count ++
                 "\t" ++ joinTab cooccur_values)

/-- Lines 60-65: split every HGT index key, failing on the first key whose
split does not have exactly two fields. -/
def parsePairs : List String → Except Fatal (List (String × String))
  | [] => .ok []
  | k :: rest =>
    match splitComma k with
    | [a, b] =>
      match parsePairs rest with
      | .error e => .error e
      | .ok ps => .ok ((a, b) :: ps)
    | _ => .error (.formatError k)

/-- Split of a single HGT key into its two taxa, when well formed. -/
def parsePair (k : String) : Option (String × String) :=
  match splitComma k with
  | [a, b] => some (a, b)
  | _ => none

/-- Lines 70-73: the header line. -/
def headerline (measures : List String) : String :=
  joinTab (["taxa_combo", "taxon_i", "taxon_j", "tip_dist", "species",
            "ranger_hgt_tallies"] ++ measures.map (fun m => "cooccur_" ++ m))

/-- The main loop over the parsed pairs: the lines printed before the first
fatal outcome, plus that outcome when one occurs. -/
def runPairs (st : State) : List (String × String) → List String × Option Fatal
  | [] => ([], none)
  | (i, j) :: rest =>
    match processPair st i j with
    | .error e => ([], some e)
    | .ok line =>
      let res := runPairs st rest
      (line :: res.1, res.2)

/-- The whole run after loading: parse every HGT key (lines 60-65), print the
header (line 73), then process every pair in order.  The result is the list
of printed lines and the fatal outcome, if any. -/
def runMain (st : State) : List String × Option Fatal :=
  match parsePairs (st.hgt_tab.rows.map Prod.fst) with
  | .error e => ([], some e)
  | .ok pairs =>
    let res := runPairs st pairs
    (headerline st.measures :: res.1, res.2)

def rvA : RankVec := ⟨"d", "p", "c", "o", "f", "g", "sp", "1"⟩

def rvB : RankVec := ⟨"d", "p", "c", "o", "f", "g", "sp", "2"⟩

def rvGenus : RankVec := ⟨"d", "p", "c", "o", "f", "gx", "sp", "1"⟩

def rowC1 : CooccurRow := ⟨"a", "b", [("jaccard", "0.42")]⟩

def stC1 : State :=
  { cooccur_tab := ⟨[rowC1]⟩
    tip_dist := ⟨[], fun _ _ => "0"⟩
    taxa_tab := ⟨[("a", rvA), ("b", rvB)]⟩
    hgt_tab := ⟨[("b,a", ⟨"sp1", "5"⟩)]⟩
    measures := ["jaccard"] }

def tC1w : CooccurTab := ⟨[⟨"a", "b", [("m", "7")]⟩]⟩

def stC2 : State :=
  { cooccur_tab := ⟨[⟨"x", "x", []⟩]⟩
    tip_dist := ⟨[], fun _ _ => "0"⟩
    taxa_tab := ⟨[("x", rvA)]⟩
    hgt_tab := ⟨[("x,x", ⟨"s", "1"⟩)]⟩
    measures := ["m"] }

def stC3 : State :=
  { cooccur_tab := ⟨[]⟩
    tip_dist := ⟨[], fun _ _ => "0"⟩
    taxa_tab := ⟨[("X", rvA), ("", rvB)]⟩
    hgt_tab := ⟨[("X,", ⟨"sp1", "5"⟩)]⟩
    measures := ["jaccard"] }

def stC3w : State :=
  { cooccur_tab := ⟨[]⟩
    tip_dist := ⟨[], fun _ _ => "0"⟩
    taxa_tab := ⟨[]⟩
    hgt_tab := ⟨[("x", ⟨"s", "1"⟩)]⟩
    measures := ["m"] }

def stC4 : State :=
  { cooccur_tab := ⟨[]⟩
    tip_dist := ⟨[], fun _ _ => "0"⟩
    taxa_tab := ⟨[("u", rvA), ("w", rvGenus)]⟩
    hgt_tab := ⟨[]⟩
    measures := [] }

def tC5 : TipDist :=
  ⟨["X", "Y"], fun i j => if i == "X" && j == "Y" then "0.13" else "0.99"⟩

def stC6 : State :=
  { cooccur_tab := ⟨[]⟩
    tip_dist := ⟨[], fun _ _ => "0"⟩
    taxa_tab := ⟨[("p", rvA), ("q", rvB)]⟩
    hgt_tab := ⟨[("p,q", ⟨"s", "1"⟩), ("q,p", ⟨"s", "1"⟩)]⟩
    measures := ["m"] }

def stC7 : State :=
  { cooccur_tab := ⟨[⟨"X", "Y", [("jaccard", "0.42")]⟩]⟩
    tip_dist := ⟨["X", "Y"], fun i j => if i == "X" && j == "Y" then "0.13" else "0.99"⟩
    taxa_tab := ⟨[("X", rvA), ("Y", rvB)]⟩
    hgt_tab := ⟨[("X,Y", ⟨"sp1", "5"⟩)]⟩
    measures := ["jaccard"] }

def stC9 : State :=
  { cooccur_tab := ⟨[]⟩
    tip_dist := ⟨[], fun _ _ => "0"⟩
    taxa_tab := ⟨[("u", rvA), ("v", rvB)]⟩
    hgt_tab := ⟨[("u,v", ⟨"s", "1"⟩)]⟩
    measures := ["m"] }

def stC10 : State :=
  { cooccur_tab := ⟨[]⟩
    tip_dist := ⟨[], fun _ _ => "0"⟩
    taxa_tab := ⟨[("a", rvA)]⟩
    hgt_tab := ⟨[]⟩
    measures := [] }

theorem char_eq_of_toNat_eq {a b : Char} (h : a.toNat = b.toNat) : a = b := by
  apply Char.eq_of_val_eq
  apply UInt32.eq_of_toBitVec_eq
  exact BitVec.toNat_injective h

theorem lexLe_total : ∀ l m : List Char, lexLe l m = true ∨ lexLe m l = true := by
  intro l
  induction l with
  | nil => intro m; left; rfl
  | cons x xs ih =>
    intro m
    cases m with
    | nil => right; rfl
    | cons y ys =>
      by_cases h1 : x.toNat < y.toNat
      · left; simp [lexLe, h1]
      · by_cases h2 : y.toNat < x.toNat
        · right; simp [lexLe, h2]
        · rcases ih ys with h | h
          · left; simp [lexLe, h1, h2, h]
          · right; simp [lexLe, h1, h2, h]

theorem lexLe_antisymm : ∀ l m : List Char, lexLe l m = true → lexLe m l = true → l = m := by
  intro l
  induction l with
  | nil =>
    intro m h1 h2
    cases m with
    | nil => rfl
    | cons y ys => simp [lexLe] at h2
  | cons x xs ih =>
    intro m h1 h2
    cases m with
    | nil => simp [lexLe] at h1
    | cons y ys =>
      by_cases hxy : x.toNat < y.toNat
      · have hyx : ¬ y.toNat < x.toNat := by omega
        simp [lexLe, hxy, hyx] at h2
      · by_cases hyx : y.toNat < x.toNat
        · simp [lexLe, hxy, hyx] at h1
        · have hx : x = y := char_eq_of_toNat_eq (by omega)
          subst hx
          have h1w : lexLe xs ys = true := by simpa [lexLe, hxy, hyx] using h1
          have h2w : lexLe ys xs = true := by simpa [lexLe, hxy, hyx] using h2
          rw [ih ys h1w h2w]

theorem strLe_antisymm {a b : String} (h1 : strLe a b = true) (h2 : strLe b a = true) :
    a = b :=
  String.ext (lexLe_antisymm a.data b.data h1 h2)

theorem strLe_of_not {a b : String} (h : ¬ strLe a b = true) : strLe b a = true := by
  rcases lexLe_total a.data b.data with hh | hh
  · exact absurd hh h
  · exact hh

theorem data_comma_pair (s t : String) :
    (s ++ "," ++ t).data = s.data ++ ',' :: t.data := by
  simp [String.data_append]

theorem split_unique :
    ∀ (x : List Char), ',' ∉ x → ∀ (y s t : List Char), ',' ∉ y →
      s ++ ',' :: t = x ++ ',' :: y → s = x ∧ t = y := by
  intro x
  induction x with
  | nil =>
    intro _ y s t hy h
    cases s with
    | nil => simpa using h
    | cons c s2 =>
      simp only [List.cons_append, List.nil_append, List.cons.injEq] at h
      exact absurd (h.2 ▸ (List.mem_append_right s2 (List.mem_cons_self ',' t))) (h.1 ▸ hy)
  | cons c x2 ih =>
    intro hx y s t hy h
    have hc : c ≠ ',' := fun he => hx (he ▸ List.mem_cons_self c x2)
    cases s with
    | nil =>
      simp only [List.nil_append, List.cons_append, List.cons.injEq] at h
      exact absurd h.1.symm hc
    | cons d s2 =>
      simp only [List.cons_append, List.cons.injEq] at h
      obtain ⟨h1, h2⟩ := ih (fun hm => hx (List.mem_cons_of_mem c hm)) y s2 t hy h.2
      exact ⟨by rw [h.1, h1], h2⟩

end PrepTables

namespace PrepTables

theorem splitCommaAux_ne_nil : ∀ l acc, splitCommaAux l acc ≠ [] := by
  intro l
  induction l with
  | nil => intro acc; simp [splitCommaAux]
  | cons c rest ih =>
    intro acc
    by_cases hc : c = ','
    · simp [splitCommaAux, hc]
    · simpa [splitCommaAux, hc] using ih (c :: acc)

theorem joinCommaTail_eq {S : List (List Char)} (h : S ≠ []) :
    joinCommaTail S = ',' :: joinCommaList S := by
  cases S with
  | nil => exact absurd rfl h
  | cons p ps => rfl

theorem splitCommaAux_join : ∀ l acc, joinCommaList (splitCommaAux l acc) = acc.reverse ++ l := by
  intro l
  induction l with
  | nil => intro acc; simp [splitCommaAux, joinCommaList, joinCommaTail]
  | cons c rest ih =>
    intro acc
    by_cases hc : c = ','
    · subst hc
      have hs : splitCommaAux (',' :: rest) acc = acc.reverse :: splitCommaAux rest [] := by
        simp [splitCommaAux]
      rw [hs]
      simp only [joinCommaList]
      rw [joinCommaTail_eq (splitCommaAux_ne_nil rest []), ih []]
      simp
    · have hs : splitCommaAux (c :: rest) acc = splitCommaAux rest (c :: acc) := by
        simp [splitCommaAux, hc]
      rw [hs, ih (c :: acc)]
      simp

theorem splitCommaAux_noComma : ∀ l acc, ',' ∉ acc → ∀ p ∈ splitCommaAux l acc, ',' ∉ p := by
  intro l
  induction l with
  | nil =>
    intro acc hacc p hp
    simp only [splitCommaAux, List.mem_singleton] at hp
    subst hp
    simpa using hacc
  | cons c rest ih =>
    intro acc hacc p hp
    by_cases hc : c = ','
    · subst hc
      have hs : splitCommaAux (',' :: rest) acc = acc.reverse :: splitCommaAux rest [] := by
        simp [splitCommaAux]
      rw [hs] at hp
      rcases List.mem_cons.mp hp with hp | hp
      · subst hp; simpa using hacc
      · exact ih [] (by simp) p hp
    · have hs : splitCommaAux (c :: rest) acc = splitCommaAux rest (c :: acc) := by
        simp [splitCommaAux, hc]
      rw [hs] at hp
      refine ih (c :: acc) ?_ p hp
      intro hm
      rcases List.mem_cons.mp hm with hm | hm
      · exact hc hm.symm
      · exact hacc hm

theorem splitComma_join {k a b : String} (h : splitComma k = [a, b]) :
    a ++ "," ++ b = k := by
  have hj := splitCommaAux_join k.data []
  unfold splitComma at h
  rcases hs : splitCommaAux k.data [] with _ | ⟨p, _ | ⟨q, _ | ⟨w, ws⟩⟩⟩ <;> rw [hs] at h
  · simp at h
  · simp at h
  · simp only [List.map_cons, List.map_nil] at h
    injection h with hp h2
    injection h2 with hq h3
    rw [hs] at hj
    simp only [joinCommaList, joinCommaTail, List.append_nil, List.reverse_nil,
      List.nil_append] at hj
    apply String.ext
    rw [data_comma_pair, ← hp, ← hq]
    exact hj
  · simp at h

theorem splitComma_noComma {k p : String} (h : p ∈ splitComma k) : ',' ∉ p.data := by
  unfold splitComma at h
  obtain ⟨q, hq, he⟩ := List.mem_map.mp h
  have := splitCommaAux_noComma k.data [] (by simp) q hq
  rw [← he]
  exact this

theorem parsePair_spec {k a b : String} (h : parsePair k = some (a, b)) :
    a ++ "," ++ b = k ∧ ',' ∉ a.data ∧ ',' ∉ b.data := by
  unfold parsePair at h
  rcases hs : splitComma k with _ | ⟨p, _ | ⟨q, _ | _⟩⟩ <;> rw [hs] at h <;> simp at h
  obtain ⟨hp, hq⟩ := h
  subst hp
  subst hq
  refine ⟨splitComma_join hs, ?_, ?_⟩
  · exact splitComma_noComma (k := k) (by rw [hs]; simp)
  · exact splitComma_noComma (k := k) (by rw [hs]; simp)

theorem canonKey_of_le {a b : String} (h : strLe a b = true) :
    canonKey a b = a ++ "," ++ b := by
  simp [canonKey, sortedPair, h, joinCommaStr]

theorem canonKey_cases (u v : String) :
    ∃ s t, strLe s t = true ∧ canonKey u v = s ++ "," ++ t := by
  cases huv : strLe u v with
  | true => exact ⟨u, v, huv, canonKey_of_le huv⟩
  | false =>
    refine ⟨v, u, strLe_of_not (by simp [huv]), ?_⟩
    simp [canonKey, sortedPair, huv, joinCommaStr]

theorem canonKey_ordered {u v x y : String} (hx : ',' ∉ x.data) (hy : ',' ∉ y.data)
    (h : canonKey u v = x ++ "," ++ y) : strLe x y = true := by
  obtain ⟨s, t, hst, he⟩ := canonKey_cases u v
  rw [he] at h
  have hd : s.data ++ ',' :: t.data = x.data ++ ',' :: y.data := by
    rw [← data_comma_pair, ← data_comma_pair, h]
  obtain ⟨h1, h2⟩ := split_unique x.data hx y.data s.data t.data hy hd
  rw [show x = s from (String.ext h1).symm, show y = t from (String.ext h2).symm]
  exact hst

theorem cooccurMem_exists {t : CooccurTab} {k : String} (h : cooccurMem t k = true) :
    ∃ r ∈ t.rows, cooccurKey r = k := by
  unfold cooccurMem at h
  rw [List.any_eq_true] at h
  obtain ⟨r, hr, he⟩ := h
  exact ⟨r, hr, by simpa using he⟩

theorem cooccur_both_dirs {t : CooccurTab} {a b : String}
    (ha : ',' ∉ a.data) (hb : ',' ∉ b.data)
    (h1 : cooccurMem t (a ++ "," ++ b) = true)
    (h2 : cooccurMem t (b ++ "," ++ a) = true) : a = b := by
  obtain ⟨r1, -, hk1⟩ := cooccurMem_exists h1
  obtain ⟨r2, -, hk2⟩ := cooccurMem_exists h2
  exact strLe_antisymm (canonKey_ordered ha hb hk1) (canonKey_ordered hb ha hk2)

theorem diffLevel_self (v : RankVec) : diffLevel v v = "NO_DIFF_FOUND" := by
  simp [diffLevel, rankValues, tax_levels, firstDiffAux]

theorem diffLevel_eq_strain_iff (vi vj : RankVec) :
    diffLevel vi vj = "Strain" ↔
      (vi.domain = vj.domain ∧ vi.phylum = vj.phylum ∧ vi.classLevel = vj.classLevel ∧
       vi.orderLevel = vj.orderLevel ∧ vi.family = vj.family ∧ vi.genus = vj.genus ∧
       vi.species = vj.species ∧ vi.strain ≠ vj.strain) := by
  simp only [diffLevel, rankValues, tax_levels, firstDiffAux]
  split_ifs <;> simp_all

theorem hgtMem_isSome {t : HgtTab} {k : String} :
    hgtMem t k = true ↔ (hgtLoc t k).isSome := by
  unfold hgtMem hgtLoc
  induction t.rows with
  | nil => simp
  | cons r rest ih =>
    simp only [List.any_cons, List.find?]
    cases hb : (r.1 == k)
    · simp
    · simp

theorem getMeasures_error {r : CooccurRow} : ∀ {ms : List String} {e : Fatal},
    getMeasures r ms = .error e → ∃ m, e = .keyError m := by
  intro ms
  induction ms with
  | nil => intro e h; simp [getMeasures] at h
  | cons m ms ih =>
    intro e h
    unfold getMeasures at h
    rcases hc : cellLookup r m with _ | v <;> rw [hc] at h
    · simp only [Except.error.injEq] at h
      exact ⟨m, h.symm⟩
    · rcases hg : getMeasures r ms with e2 | vs <;> rw [hg] at h
      · simp only [Except.error.injEq] at h
        exact h ▸ ih hg
      · simp at h

theorem cooccurValues_error {t : CooccurTab} {ms : List String} {c r : String} {e : Fatal}
    (h : cooccurValues t ms c r = .error e) :
    e = .reverseCooccur r ∨ ∃ m, e = .keyError m := by
  unfold cooccurValues at h
  rcases hl : cooccurLoc t c with _ | row <;> rw [hl] at h
  · cases hm : cooccurMem t r <;> simp [hm] at h
    exact Or.inl h.symm
  · exact Or.inr (getMeasures_error h)

theorem processPair_after_strain (st : State) (i j : String) (vi vj : RankVec)
    (hi : taxaLoc st.taxa_tab i = some vi) (hj : taxaLoc st.taxa_tab j = some vj)
    (hd : diffLevel vi vj = "Strain") :
    (hgtLoc st.hgt_tab (i ++ "," ++ j) = none ∧
       processPair st i j = .error (.hgtNotFound (i ++ "," ++ j))) ∨
    (hgtMem st.hgt_tab (j ++ "," ++ i) = true ∧
       processPair st i j = .error (.reverseHgt (j ++ "," ++ i))) ∨
    (∃ e, processPair st i j = .error e ∧
       (e = .reverseCooccur (j ++ "," ++ i) ∨ ∃ m, e = .keyError m)) ∨
    (∃ s, processPair st i j = .ok s) := by
  rcases h3 : hgtLoc st.hgt_tab (i ++ "," ++ j) with _ | row
  · exact Or.inl ⟨rfl, by simp [processPair, hi, hj, hd, h3]⟩
  · cases h4 : hgtMem st.hgt_tab (j ++ "," ++ i)
    · rcases h5 : cooccurValues st.cooccur_tab st.measures (i ++ "," ++ j) (j ++ "," ++ i)
        with e | vs
      · exact Or.inr (Or.inr (Or.inl
          ⟨e, by simp [processPair, hi, hj, hd, h3, h4, h5], cooccurValues_error h5⟩))
      · refine Or.inr (Or.inr (Or.inr ⟨i ++ "," ++ j ++ "\t" ++ i ++ "\t" ++ j ++ "\t" ++
          tipDistVal st.tip_dist i j ++ "\t" ++ row.species ++ "\t" ++ row.hgt_count ++
          "\t" ++ joinTab vs, ?_⟩))
        simp [processPair, hi, hj, hd, h3, h4, h5]
    · exact Or.inr (Or.inl ⟨rfl, by simp [processPair, hi, hj, hd, h3, h4]⟩)

theorem parsePairs_error (keys : List String)
    (h : ∃ k ∈ keys, (splitComma k).length ≠ 2) :
    ∃ k2, (splitComma k2).length ≠ 2 ∧ parsePairs keys = .error (.formatError k2) := by
  induction keys with
  | nil => obtain ⟨k, hk, -⟩ := h; simp at hk
  | cons k rest ih =>
    obtain ⟨k0, hk0, hbad⟩ := h
    rcases hs : splitComma k with _ | ⟨a, _ | ⟨b, _ | _⟩⟩
    · exact ⟨k, by rw [hs]; simp, by simp [parsePairs, hs]⟩
    · exact ⟨k, by rw [hs]; simp, by simp [parsePairs, hs]⟩
    · rcases List.mem_cons.mp hk0 with he | he
      · subst he
        rw [hs] at hbad
        simp at hbad
      · obtain ⟨k2, h2, hp⟩ := ih ⟨k0, he, hbad⟩
        exact ⟨k2, h2, by simp [parsePairs, hs, hp]⟩
    · exact ⟨k, by rw [hs]; simp, by simp [parsePairs, hs]⟩

/-- Claim C1 counterexample: for the processed pair `("b", "a")` the canonical
(sorted) key `"a,b"` is present in the co-occurrence table, yet the program
raises the reverse-key ConsistencyError instead of emitting that row's
measure value, because the lookup uses the ordered HGT key `"b,a"`. -/
theorem C1_counterexample_unsorted_key :
    cooccurLoc stC1.cooccur_tab (canonKey "b" "a") = some rowC1 ∧
    processPair stC1 "b" "a" = .error (.reverseCooccur ("a" ++ "," ++ "b")) := by
  constructor
  · decide
  · rfl

/-- Claim C1 (amended): for a pair whose HGT key is already in canonical
(sorted) order, each requested measure is looked up under the canonical key;
if that key is absent and the reverse key is present, the reverse-key
ConsistencyError is raised; if neither is present, `"NA"` is emitted for
every measure. -/
theorem C1_cooccur_lookup_amended (t : CooccurTab) (ms : List String) (a b : String)
    (hsorted : strLe a b = true) :
    (∀ row, cooccurLoc t (canonKey a b) = some row →
        cooccurValues t ms (a ++ "," ++ b) (b ++ "," ++ a) = getMeasures row ms) ∧
    (cooccurLoc t (canonKey a b) = none → cooccurMem t (b ++ "," ++ a) = true →
        cooccurValues t ms (a ++ "," ++ b) (b ++ "," ++ a) =
          .error (.reverseCooccur (b ++ "," ++ a))) ∧
    (cooccurLoc t (canonKey a b) = none → cooccurMem t (b ++ "," ++ a) = false →
        cooccurValues t ms (a ++ "," ++ b) (b ++ "," ++ a) =
          .ok (ms.map (fun _ => "NA"))) := by
  rw [canonKey_of_le hsorted]
  refine ⟨?_, ?_, ?_⟩
  · intro row hrow
    simp [cooccurValues, hrow]
  · intro hnone hmem
    simp [cooccurValues, hnone, hmem]
  · intro hnone hmem
    simp [cooccurValues, hnone, hmem]

/-- Witness for the amended C1 at a concrete table whose canonical key is
present. -/
theorem C1_cooccur_lookup_amended_witness :
    cooccurValues tC1w ["m"] ("a" ++ "," ++ "b") ("b" ++ "," ++ "a") =
      getMeasures ⟨"a", "b", [("m", "7")]⟩ ["m"] :=
  (C1_cooccur_lookup_amended tC1w ["m"] "a" "b" (by decide)).1
    ⟨"a", "b", [("m", "7")]⟩ (by decide)

/-- Claim C2 (confirmed via a canonicity argument): the co-occurrence index
holds only canonical sorted-join keys, so a processed pair key and its reverse
are both in that index only when the two taxa are equal; such a pair fails the
strain-level scan, so the run ends with a ConsistencyError and no output row
is emitted for the pair. -/
theorem C2_both_keys_cooccur_fatal (st : State) (k a b : String) (va : RankVec)
    (hparse : parsePair k = some (a, b))
    (hva : taxaLoc st.taxa_tab a = some va)
    (h1 : cooccurMem st.cooccur_tab (a ++ "," ++ b) = true)
    (h2 : cooccurMem st.cooccur_tab (b ++ "," ++ a) = true) :
    ∃ e, processPair st a b = .error e ∧ isConsistencyError e := by
  obtain ⟨-, ha, hb⟩ := parsePair_spec hparse
  have hab : a = b := cooccur_both_dirs ha hb h1 h2
  subst hab
  refine ⟨.strainError (a ++ "," ++ a), ?_, trivial⟩
  simp [processPair, hva, diffLevel_self]

/-- Witness for C2: the degenerate pair `"x,x"`, whose key equals its own
reverse and sits in the canonical co-occurrence index. -/
theorem C2_both_keys_cooccur_fatal_witness :
    ∃ e, processPair stC2 "x" "x" = .error e ∧ isConsistencyError e :=
  C2_both_keys_cooccur_fatal stC2 "x,x" "x" "x" rvA (by decide) (by decide)
    (by decide) (by decide)

/-- Claim C3 counterexample: the key `"X,"` splits into two fields, one of
them empty, yet the run raises no FormatError at all: it emits a normal data
row for that key. -/
theorem C3_counterexample_empty_field :
    splitComma "X," = ["X", ""] ∧
    runMain stC3 = ([headerline ["jaccard"], "X,\tX\t\tNA\tsp1\t5\tNA"], none) := by
  constructor
  · decide
  · decide

/-- Claim C3 (amended): an HGT key whose comma split does not have exactly two
fields (the fields may be empty) makes the run end with a FormatError before
any line, header included, is printed. -/
theorem C3_malformed_key_format_error (st : State) (k : String)
    (hk : k ∈ st.hgt_tab.rows.map Prod.fst) (hbad : (splitComma k).length ≠ 2) :
    ∃ k2, (splitComma k2).length ≠ 2 ∧ runMain st = ([], some (.formatError k2)) := by
  obtain ⟨k2, h2, he⟩ := parsePairs_error (st.hgt_tab.rows.map Prod.fst) ⟨k, hk, hbad⟩
  exact ⟨k2, h2, by simp [runMain, he]⟩

/-- Witness for the amended C3: a one-field key `"x"` aborts the concrete run
with a FormatError and no output. -/
theorem C3_malformed_key_format_error_witness :
    ∃ k2, (splitComma k2).length ≠ 2 ∧ runMain stC3w = ([], some (.formatError k2)) :=
  C3_malformed_key_format_error stC3w "x" (by decide) (by decide)

/-- Claim C4: a processed pair's rank vectors are scanned in the fixed order
Domain..Strain; the scan result is `"Strain"` exactly when the seven ranks
before Strain agree and Strain differs, and any other result makes processing
fail with the strain-level ConsistencyError naming the pair (and that error
arises only then). -/
theorem C4_strain_level_check (st : State) (i j : String) (vi vj : RankVec)
    (hi : taxaLoc st.taxa_tab i = some vi) (hj : taxaLoc st.taxa_tab j = some vj) :
    (diffLevel vi vj = "Strain" ↔
      (vi.domain = vj.domain ∧ vi.phylum = vj.phylum ∧ vi.classLevel = vj.classLevel ∧
       vi.orderLevel = vj.orderLevel ∧ vi.family = vj.family ∧ vi.genus = vj.genus ∧
       vi.species = vj.species ∧ vi.strain ≠ vj.strain)) ∧
    (diffLevel vi vj ≠ "Strain" →
      processPair st i j = .error (.strainError (i ++ "," ++ j))) ∧
    (diffLevel vi vj = "Strain" →
      ∀ c, processPair st i j ≠ .error (.strainError c)) := by
  refine ⟨diffLevel_eq_strain_iff vi vj, ?_, ?_⟩
  · intro hd
    simp [processPair, hi, hj, hd]
  · intro hd c
    rcases processPair_after_strain st i j vi vj hi hj hd with
      ⟨-, he⟩ | ⟨-, he⟩ | ⟨e, he, hcl⟩ | ⟨s, he⟩ <;> rw [he]
    · simp
    · simp
    · rcases hcl with hcl | ⟨m, hcl⟩ <;> subst hcl <;> simp
    · simp

/-- Witness for C4: two concrete taxa that first differ at Genus make
processing fail with the strain-level ConsistencyError. -/
theorem C4_strain_level_check_witness :
    processPair stC4 "u" "w" = .error (.strainError ("u" ++ "," ++ "w")) :=
  (C4_strain_level_check stC4 "u" "w" rvA rvGenus (by decide) (by decide)).2.1 (by decide)

/-- Claim C5: the tip-distance field is the matrix value in one of the two
directions when both taxa are in the distance index, and `"NA"` when either
taxon is absent from it. -/
theorem C5_tip_distance_lookup (t : TipDist) (i j : String) :
    ((i ∉ t.idx ∨ j ∉ t.idx) → tipDistVal t i j = "NA") ∧
    (i ∈ t.idx → j ∈ t.idx →
      (tipDistVal t i j = t.val i j ∨ tipDistVal t i j = t.val j i)) := by
  constructor
  · intro h
    simp [tipDistVal, h]
  · intro hi hj
    left
    have hcond : ¬ (i ∉ t.idx ∨ j ∉ t.idx) := by
      push_neg
      exact ⟨hi, hj⟩
    unfold tipDistVal
    rw [if_neg hcond]

/-- Witness for C5 at a concrete table: one absent taxon gives `"NA"`, both
present give the `[i,j]` matrix cell. -/
theorem C5_tip_distance_lookup_witness :
    tipDistVal tC5 "Q" "Y" = "NA" ∧
    (tipDistVal tC5 "X" "Y" = tC5.val "X" "Y" ∨ tipDistVal tC5 "X" "Y" = tC5.val "Y" "X") :=
  ⟨(C5_tip_distance_lookup tC5 "Q" "Y").1 (Or.inl (by decide)),
   (C5_tip_distance_lookup tC5 "X" "Y").2 (by decide) (by decide)⟩

/-- Claim C6: a processed HGT key whose reverse-ordered key is also in the HGT
index ends the run with a ConsistencyError (the reverse-key error, or the
strain-level error when that fires first), so no output row is emitted. -/
theorem C6_reverse_hgt_key_fatal (st : State) (k a b : String) (va vb : RankVec)
    (hparse : parsePair k = some (a, b))
    (hk : hgtMem st.hgt_tab k = true)
    (hrev : hgtMem st.hgt_tab (b ++ "," ++ a) = true)
    (hva : taxaLoc st.taxa_tab a = some va) (hvb : taxaLoc st.taxa_tab b = some vb) :
    ∃ e, processPair st a b = .error e ∧ isConsistencyError e := by
  obtain ⟨hjoin, -, -⟩ := parsePair_spec hparse
  by_cases hd : diffLevel va vb = "Strain"
  · have hk2 : hgtMem st.hgt_tab (a ++ "," ++ b) = true := by
      rw [hjoin]
      exact hk
    have hloc : ∃ row, hgtLoc st.hgt_tab (a ++ "," ++ b) = some row := by
      have hsome := hgtMem_isSome.mp hk2
      rcases hh : hgtLoc st.hgt_tab (a ++ "," ++ b) with _ | row
      · rw [hh] at hsome
        simp at hsome
      · exact ⟨row, rfl⟩
    obtain ⟨row, hrow⟩ := hloc
    exact ⟨.reverseHgt (b ++ "," ++ a),
      by simp [processPair, hva, hvb, hd, hrow, hrev], trivial⟩
  · exact ⟨.strainError (a ++ "," ++ b), by simp [processPair, hva, hvb, hd], trivial⟩

/-- Witness for C6: HGT keys `"p,q"` and `"q,p"` both present; processing
`"p,q"` ends with a ConsistencyError. -/
theorem C6_reverse_hgt_key_fatal_witness :
    ∃ e, processPair stC6 "p" "q" = .error e ∧ isConsistencyError e :=
  C6_reverse_hgt_key_fatal stC6 "p,q" "p" "q" rvA rvB (by decide) (by decide)
    (by decide) (by decide) (by decide)

/-- Claim C7: the golden scenario: a fully consistent single pair `"X,Y"`
produces, after the header, exactly the expected tab-delimited data row. -/
theorem C7_golden_scenario_row :
    runMain stC7 =
      (["taxa_combo\ttaxon_i\ttaxon_j\ttip_dist\tspecies\tranger_hgt_tallies\tcooccur_jaccard",
        "X,Y\tX\tY\t0.13\tsp1\t5\t0.42"], none) := by
  decide

/-- Claim C8: canonical pair key construction is order-independent, and equals
the comma-join of the lexicographically sorted pair. -/
theorem C8_canonKey_order_independent (a b : String) :
    canonKey a b = canonKey b a ∧ canonKey a b = joinCommaStr (sortedPair a b) := by
  refine ⟨?_, rfl⟩
  cases h1 : strLe a b with
  | true =>
    cases h2 : strLe b a with
    | true => rw [canonKey_of_le h1, canonKey_of_le h2, strLe_antisymm h1 h2]
    | false =>
      rw [canonKey_of_le h1]
      simp [canonKey, sortedPair, h2, joinCommaStr]
  | false =>
    have h2 : strLe b a = true := strLe_of_not (a := a) (b := b) (by simp [h1])
    rw [canonKey_of_le h2]
    simp [canonKey, sortedPair, h1, joinCommaStr]

/-- Claim C9: for a pair parsed from a key of the HGT index, the
`Taxa_combo not found in HGT table` exit is unreachable: rejoining the two
split fields reproduces the original key, which is in the index. -/
theorem C9_hgt_not_found_unreachable (st : State) (k a b : String)
    (hparse : parsePair k = some (a, b)) (hk : hgtMem st.hgt_tab k = true) :
    ∀ c, processPair st a b ≠ .error (.hgtNotFound c) := by
  intro c
  obtain ⟨hjoin, -, -⟩ := parsePair_spec hparse
  rcases h1 : taxaLoc st.taxa_tab a with _ | va
  · simp [processPair, h1]
  · rcases h2 : taxaLoc st.taxa_tab b with _ | vb
    · simp [processPair, h1, h2]
    · by_cases hd : diffLevel va vb = "Strain"
      · have hloc : hgtLoc st.hgt_tab (a ++ "," ++ b) ≠ none := by
          have hk2 : hgtMem st.hgt_tab (a ++ "," ++ b) = true := by
            rw [hjoin]
            exact hk
          have hsome := hgtMem_isSome.mp hk2
          intro hnone
          rw [hnone] at hsome
          simp at hsome
        rcases processPair_after_strain st a b va vb h1 h2 hd with
          ⟨hn, -⟩ | ⟨-, he⟩ | ⟨e, he, hcl⟩ | ⟨s, he⟩
        · exact absurd hn hloc
        · rw [he]
          simp
        · rcases hcl with hcl | ⟨m, hcl⟩ <;> subst hcl <;> rw [he] <;> simp
        · rw [he]
          simp
      · simp [processPair, h1, h2, hd]

/-- Witness for C9 at a concrete run whose single pair is processed without
the not-found exit. -/
theorem C9_hgt_not_found_unreachable_witness :
    processPair stC9 "u" "v" ≠ .error (.hgtNotFound ("u" ++ "," ++ "v")) :=
  C9_hgt_not_found_unreachable stC9 "u,v" "u" "v" (by decide) (by decide)
    ("u" ++ "," ++ "v")

/-- Claim C10: presence of both taxa in the taxonomic table is an unguarded
precondition: a missing taxon ends the run with the uncaught lookup error
(not a ConsistencyError), the first missing label being reported. -/
theorem C10_taxa_lookup_unguarded (st : State) (i j : String) :
    (taxaLoc st.taxa_tab i = none → processPair st i j = .error (.keyError i)) ∧
    (∀ vi, taxaLoc st.taxa_tab i = some vi → taxaLoc st.taxa_tab j = none →
      processPair st i j = .error (.keyError j)) ∧
    ¬ isConsistencyError (.keyError i) := by
  refine ⟨?_, ?_, ?_⟩
  · intro h
    simp [processPair, h]
  · intro vi hi hj
    simp [processPair, hi, hj]
  · simp [isConsistencyError]

/-- Witness for C10: a taxon absent from the concrete taxonomic table ends
processing with the lookup error, for either position of the pair. -/
theorem C10_taxa_lookup_unguarded_witness :
    processPair stC10 "zz" "a" = .error (.keyError "zz") ∧
    processPair stC10 "a" "zz" = .error (.keyError "zz") :=
  ⟨(C10_taxa_lookup_unguarded stC10 "zz" "a").1 (by decide),
   (C10_taxa_lookup_unguarded stC10 "a" "zz").2.1 rvA (by decide) (by decide)⟩

end PrepTables
